import Mathlib

/-!
Verification of the slackdump export core: a shallow embedding of the
export orchestrator (`export` package), the channel-name resolution and
official-compatibility filter, the per-page attachment download hook, and
the bounded retry policy, together with proofs of the specified
properties.  File-system writes and downloader lifecycle calls are
modelled as an explicit effect trace; remote reads (users, message dumps)
are supplied by an environment record.
-/

namespace Slackdump

/-- A Slack user: the fields of `slack.User` the export core reads
(`ID` for index keys, `Name` for IM directory naming). -/
structure User where
  id : String
  name : String
deriving DecidableEq, Repr

/-- A Slack channel: the fields of `slack.Channel` the export core reads
(`ID`, `Name`, `NameNormalized`, `IsIM`, and `User`, the peer ID of an IM). -/
structure Channel where
  id : String
  name : String
  nameNormalized : String
  isIM : Bool
  user : String
deriving DecidableEq, Repr

/-- A Slack message; the export core treats messages opaquely except for
the timestamp from which the calendar date of the output shard derives. -/
structure Message where
  ts : String
  text : String
deriving DecidableEq, Repr

/-- The user index mapping user ID to user, as an association list. -/
def UserIndex : Type := List (String × User)

/-- Lookup of a user ID in the index (the Go map read `uidx[ch.User]`). -/
def lookupUser (uidx : UserIndex) (id : String) : Option User :=
  List.lookup id (α := String) (β := User) uidx

/-- Modelled from the spec: `types.Users.IndexByID` is not under `src/`;
per the spec it builds the UserIndex "mapping ID → User, unique keys, no
ordering guarantee" from the fetched user list. -/
def indexByID (users : List User) : UserIndex :=
  users.map (fun u => (u.id, u))

/-- The `userPrefix` constant: prefix for Direct Message directories. -/
def userPrefix : String := "IM-"

/-- Errors surfaced by per-channel export: a wrapped message-dump failure
(`failed dumping %q (%s): %w`) or `errUnknownEntity`. -/
inductive ConvErr where
  | dumpFailed (chName chID msg : String)
  | unknownEntity
deriving DecidableEq, Repr

/-- Embedding of `validName`: returns `NameNormalized` when non-empty;
otherwise, for a non-IM channel, fails with `errUnknownEntity`; for an IM
channel returns `userPrefix` plus the peer user's name when the peer ID is
in the index, else `userPrefix` plus the raw peer ID. -/
def validName (ch : Channel) (uidx : UserIndex) : Except ConvErr String :=
  if ch.nameNormalized ≠ "" then
    Except.ok ch.nameNormalized
  else if !ch.isIM then
    Except.error ConvErr.unknownEntity
  else
    match lookupUser uidx ch.user with
    | some user => Except.ok (userPrefix ++ user.name)
    | none => Except.ok (userPrefix ++ ch.user)

/-- Embedding of `filterOutStrangeChannels`: keeps exactly the channels
whose `Name` and `NameNormalized` are both non-empty, in order. -/
def filterOutStrangeChannels (chans : List Channel) : List Channel :=
  chans.filter (fun ch => ch.name != "" && ch.nameNormalized != "")

/-- Observable effects of an export run, in program order: downloader
lifecycle calls, directory creation, and the JSON documents written. -/
inductive Effect where
  | dlStart
  | dlStop
  | mkDir (path : String)
  | writeMsgsFile (path : String) (msgs : List Message)
  | writeUsers (users : List User)
  | writeChannelsBak (chans : List Channel)
  | writeChannels (chans : List Channel)
deriving DecidableEq, Repr

/-- Appends a message to the bucket of its date, creating a new bucket at
the end when the date has not been seen. -/
def addToBucket : List (String × List Message) → String → Message →
    List (String × List Message)
  | [], d, m => [(d, [m])]
  | (k, ms) :: rest, d, m =>
    if k = d then (k, ms ++ [m]) :: rest
    else (k, ms) :: addToBucket rest d m

/-- Modelled from the spec: `Export.byDate` and the `messagesByDate` type
are not under `src/`; per the spec they group a channel's messages into a
mapping keyed by the calendar date string derived from each message's
timestamp, with insertion order equal to the API return order.  The
timestamp-to-date conversion is abstracted as the `dateOf` parameter. -/
def byDate (dateOf : Message → String) (msgs : List Message) :
    List (String × List Message) :=
  msgs.foldl (fun b m => addToBucket b (dateOf m) m) []

/-- Path join as `filepath.Join` behaves on the export's relative paths. -/
def pathJoin (a b : String) : String := a ++ "/" ++ b

/-- Embedding of `basedir`: the channel's directory under the export dir. -/
def basedir (dir channelName : String) : String := pathJoin dir channelName

/-- Embedding of `saveChannel` as its effect trace: creates the channel
directory, then writes one `{date}.json` file per date bucket. -/
def saveChannel (dir channelName : String) (msgs : List (String × List Message)) :
    List Effect :=
  Effect.mkDir (basedir dir channelName) ::
    msgs.map (fun b =>
      Effect.writeMsgsFile (pathJoin (basedir dir channelName) (b.1 ++ ".json")) b.2)

/-- The remote environment of a run: the user fetch (`GetUsers`), the
per-channel message dump (`DumpMessagesRaw`, keyed by channel ID), and the
calendar-date derivation used by the grouping. -/
structure Env where
  getUsers : Except String (List User)
  dump : String → Except String (List Message)
  dateOf : Message → String

/-- Embedding of `exportConversation`: dumps the channel's messages (a
dump failure is wrapped identifying the channel's name and ID), returns
with no effects on an empty result set, and otherwise groups by date,
resolves the directory name via `validName`, and saves the channel. -/
def exportConversation (env : Env) (dir : String) (users : List User)
    (ch : Channel) : Except ConvErr (List Effect) :=
  match env.dump ch.id with
  | Except.error e => Except.error (ConvErr.dumpFailed ch.name ch.id e)
  | Except.ok messages =>
    if messages.length = 0 then Except.ok []
    else
      match validName ch (indexByID users) with
      | Except.error e => Except.error e
      | Except.ok name =>
        Except.ok (saveChannel dir name (byDate env.dateOf messages))

/-- Errors `messages`/`Run` can return: the user fetch failure, or a
channel-stream error wrapped as `channels: error: %w`. -/
inductive RunErr where
  | usersFetch (msg : String)
  | channels (e : ConvErr)
deriving DecidableEq, Repr

/-- The `StreamChannels` callback loop of `messages`: exports each
streamed channel in order, accumulating its effects and appending the
channel to the channel list; the first failing channel aborts the loop
with its error. -/
def runChannels (env : Env) (dir : String) (users : List User) :
    List Channel → Except ConvErr (List Effect × List Channel)
  | [] => Except.ok ([], [])
  | ch :: rest =>
    match exportConversation env dir users ch with
    | Except.error e => Except.error e
    | Except.ok effs =>
      match runChannels env dir users rest with
      | Except.error e => Except.error e
      | Except.ok (effs2, chans) => Except.ok (effs ++ effs2, ch :: chans)

/-- Embedding of `Export.messages`: starts the downloader when
`IncludeFiles` is set, runs the channel stream, then writes the
unfiltered backup `channels_full.json.bak` followed by the filtered
`channels.json`.  The source contains no downloader `Stop` call, so no
`Effect.dlStop` is ever emitted. -/
def messagesRun (env : Env) (dir : String) (includeFiles : Bool)
    (users : List User) (stream : List Channel) : Except RunErr (List Effect) :=
  let pre := if includeFiles then [Effect.dlStart] else []
  match runChannels env dir users stream with
  | Except.error e => Except.error (RunErr.channels e)
  | Except.ok (effs, chans) =>
    Except.ok (pre ++ effs ++
      [Effect.writeChannelsBak chans,
       Effect.writeChannels (filterOutStrangeChannels chans)])

/-- Embedding of `Export.Run`: fetches and writes the users, then runs
the channel export; either failure aborts the run. -/
def runExport (env : Env) (dir : String) (includeFiles : Bool)
    (stream : List Channel) : Except RunErr (List Effect) :=
  match env.getUsers with
  | Except.error e => Except.error (RunErr.usersFetch e)
  | Except.ok users =>
    match messagesRun env dir includeFiles users stream with
    | Except.error e => Except.error e
    | Except.ok effs => Except.ok (Effect.writeUsers users :: effs)

/-- A file attachment reference extracted from a message batch. -/
structure SlackFile where
  name : String
deriving DecidableEq, Repr

/-- The downloader's per-file outcome as seen by `DownloadFile`'s caller:
success (`none`), `ErrNotStarted`, or some other error. -/
inductive DLErr where
  | notStarted
  | other (msg : String)
deriving DecidableEq, Repr

/-- The `ProcessResult` a page-processing function reports. -/
structure ProcessResult where
  entity : String
  count : Nat
deriving DecidableEq, Repr

/-- The loop of the function `downloadFn` returns: sends each extracted
file to the downloader; `ErrNotStarted` short-circuits to success with
count 0, any other error is returned as-is, and when every send succeeds
the reported count is the total number of extracted files. -/
def downloadFnLoop (dl : SlackFile → Option DLErr) (total : Nat) :
    List SlackFile → Except DLErr ProcessResult
  | [] => Except.ok ⟨"files", total⟩
  | f :: rest =>
    match dl f with
    | some DLErr.notStarted => Except.ok ⟨"files", 0⟩
    | some e => Except.error e
    | none => downloadFnLoop dl total rest

/-- Embedding of the per-page function returned by `downloadFn`, applied
to the files extracted from one message page. -/
def downloadFn (dl : SlackFile → Option DLErr) (files : List SlackFile) :
    Except DLErr ProcessResult :=
  downloadFnLoop dl files.length files

/-- One invocation's outcome for a callback run under the retry policy. -/
inductive CallResult where
  | ok
  | rateLimited
  | otherErr (msg : String)
deriving DecidableEq, Repr

/-- The retry wrapper's result, carrying how many times the callback was
invoked. -/
inductive RetryResult where
  | success (calls : Nat)
  | failed (msg : String) (calls : Nat)
  | exhausted (calls : Nat)
deriving DecidableEq, Repr

/-- The attempt loop of the retry wrapper: first argument is the number
of attempts left, second the number of calls already made (which indexes
the callback). -/
def withRetryLoop (fn : Nat → CallResult) : Nat → Nat → RetryResult
  | 0, calls => RetryResult.exhausted calls
  | n + 1, calls =>
    match fn calls with
    | CallResult.ok => RetryResult.success (calls + 1)
    | CallResult.rateLimited => withRetryLoop fn n (calls + 1)
    | CallResult.otherErr e => RetryResult.failed e (calls + 1)

/-- Modelled from the spec: `network.WithRetry`, which `withRetry` in
`slackdump.go` delegates to, is not under `src/`; per the spec it runs
the callback, sleeps and retries on a rate-limit signal up to the
configured maximum number of attempts, propagates any other error
immediately, and reports retry exhaustion when attempts run out.  The
callback is indexed by the invocation count; sleeping is unobservable
here. -/
def withRetry (maxAttempts : Nat) (fn : Nat → CallResult) : RetryResult :=
  withRetryLoop fn maxAttempts 0

/-- The messages contained in the message files of an effect trace, in
trace order. -/
def msgsOfEffects : List Effect → List Message
  | [] => []
  | Effect.writeMsgsFile _ ms :: rest => ms ++ msgsOfEffects rest
  | _ :: rest => msgsOfEffects rest

/-- The concatenation of all date buckets' messages, in bucket order. -/
def joinBuckets : List (String × List Message) → List Message
  | [] => []
  | (_, ms) :: rest => ms ++ joinBuckets rest

/-- Adding a message to its date bucket adds exactly that message to the
bucket contents, up to permutation. -/
theorem joinBuckets_addToBucket (d : String) (m : Message)
    (b : List (String × List Message)) :
    List.Perm (joinBuckets (addToBucket b d m)) (joinBuckets b ++ [m]) := by
  induction b with
  | nil =>
    simp only [addToBucket, joinBuckets, List.nil_append, List.append_nil]
    exact List.Perm.refl _
  | cons p rest ih =>
    obtain ⟨k, ms⟩ := p
    by_cases hk : k = d
    · simp only [addToBucket, if_pos hk, joinBuckets]
      rw [List.append_assoc ms [m] (joinBuckets rest),
        List.append_assoc ms (joinBuckets rest) [m]]
      exact List.Perm.append_left ms
        (List.Perm.symm (List.perm_append_singleton m (joinBuckets rest)))
    · simp only [addToBucket, if_neg hk, joinBuckets]
      rw [List.append_assoc ms (joinBuckets rest) [m]]
      exact List.Perm.append_left ms ih

/-- The fold underlying `byDate` only ever appends the folded messages to
the bucket contents, up to permutation. -/
theorem joinBuckets_foldl (dateOf : Message → String) (msgs : List Message) :
    ∀ b : List (String × List Message),
      List.Perm
        (joinBuckets (msgs.foldl (fun b m => addToBucket b (dateOf m) m) b))
        (joinBuckets b ++ msgs) := by
  induction msgs with
  | nil => intro b; simp only [List.foldl_nil, List.append_nil]; exact List.Perm.refl _
  | cons m rest ih =>
    intro b
    have step := ih (addToBucket b (dateOf m) m)
    refine List.Perm.trans step ?_
    have h1 := List.Perm.append_right rest (joinBuckets_addToBucket (dateOf m) m b)
    refine List.Perm.trans h1 ?_
    rw [List.append_assoc]
    exact List.Perm.refl _

/-- C4 core: the date buckets of `byDate` partition the grouped messages:
their concatenation is a permutation of the input. -/
theorem joinBuckets_byDate (dateOf : Message → String) (msgs : List Message) :
    List.Perm (joinBuckets (byDate dateOf msgs)) msgs := by
  have := joinBuckets_foldl dateOf msgs []
  simpa [byDate, joinBuckets] using this

/-- The message files written by `saveChannel` hold exactly the bucket
contents, in bucket order. -/
theorem msgsOfEffects_saveChannel (dir channelName : String)
    (buckets : List (String × List Message)) :
    msgsOfEffects (saveChannel dir channelName buckets) = joinBuckets buckets := by
  simp only [saveChannel, msgsOfEffects]
  induction buckets with
  | nil => rfl
  | cons b rest ih =>
    obtain ⟨d, ms⟩ := b
    simp only [List.map_cons, msgsOfEffects, joinBuckets]
    rw [ih]

/-- A successful channel-stream loop accumulates exactly the streamed
channels, in order. -/
theorem runChannels_ok_chans (env : Env) (dir : String) (users : List User) :
    ∀ stream effs chans,
      runChannels env dir users stream = Except.ok (effs, chans) →
      chans = stream := by
  intro stream
  induction stream with
  | nil =>
    intro effs chans h
    simp only [runChannels] at h
    cases h
    rfl
  | cons ch rest ih =>
    intro effs chans h
    simp only [runChannels] at h
    cases hc : exportConversation env dir users ch with
    | error e => rw [hc] at h; cases h
    | ok effs1 =>
      rw [hc] at h
      cases hr : runChannels env dir users rest with
      | error e => rw [hr] at h; cases h
      | ok p =>
        obtain ⟨effs2, chans2⟩ := p
        rw [hr] at h
        cases h
        rw [ih effs2 chans2 hr]

end Slackdump

namespace Slackdump

/-- C3: `validName` is a pure function of the channel and user index with
exactly the specified behaviour: non-empty `NameNormalized` is returned
as-is regardless of `IsIM`; an IM with empty `NameNormalized` resolves to
`IM-` plus the peer's name when the peer ID is indexed and `IM-` plus the
raw peer ID otherwise; a non-IM with empty `NameNormalized` yields the
unknown-entity error and no name. -/
theorem validName_spec (ch : Channel) (uidx : UserIndex) :
    (ch.nameNormalized ≠ "" → validName ch uidx = Except.ok ch.nameNormalized) ∧
    (ch.nameNormalized = "" → ch.isIM = true →
      ∀ u, lookupUser uidx ch.user = some u →
        validName ch uidx = Except.ok (userPrefix ++ u.name)) ∧
    (ch.nameNormalized = "" → ch.isIM = true → lookupUser uidx ch.user = none →
      validName ch uidx = Except.ok (userPrefix ++ ch.user)) ∧
    (ch.nameNormalized = "" → ch.isIM = false →
      validName ch uidx = Except.error ConvErr.unknownEntity)  := by
  refine ⟨fun h => ?_, fun h him u hu => ?_, fun h him hnone => ?_, fun h him => ?_⟩
  · simp [validName, h]
  · simp [validName, h, him, hu]
  · simp [validName, h, him, hnone]
  · simp [validName, h, him]

/-- Witness for C3: the four branches of `validName_spec` evaluated at
concrete channels and a concrete index. -/
theorem validName_spec_witness :
    validName ⟨"C1", "general", "general", false, ""⟩ [] = Except.ok "general" ∧
    validName ⟨"D1", "", "", true, "U1"⟩ [("U1", ⟨"U1", "alice"⟩)] =
      Except.ok (userPrefix ++ "alice") ∧
    validName ⟨"D2", "", "", true, "U9"⟩ [("U1", ⟨"U1", "alice"⟩)] =
      Except.ok (userPrefix ++ "U9") ∧
    validName ⟨"X1", "", "", false, ""⟩ [] = Except.error ConvErr.unknownEntity := by
  refine ⟨(validName_spec ⟨"C1", "general", "general", false, ""⟩ []).1 (by decide),
    (validName_spec ⟨"D1", "", "", true, "U1"⟩ [("U1", ⟨"U1", "alice"⟩)]).2.1
      rfl rfl ⟨"U1", "alice"⟩ (by rfl),
    (validName_spec ⟨"D2", "", "", true, "U9"⟩ [("U1", ⟨"U1", "alice"⟩)]).2.2.1
      rfl rfl (by rfl),
    (validName_spec ⟨"X1", "", "", false, ""⟩ []).2.2.2 rfl rfl⟩

/-- C2 counterexample: a channel with empty `Name` but non-empty
`NameNormalized` is dropped by `filterOutStrangeChannels`, although the
claim says a channel is kept whenever at least one of `Name` and
`NameNormalized` is non-empty. -/
theorem filterOutStrangeChannels_counterexample :
    filterOutStrangeChannels [⟨"C9", "", "weird", false, ""⟩] = [] ∧
    (⟨"C9", "", "weird", false, ""⟩ : Channel).nameNormalized ≠ "" := by
  constructor
  · rfl
  · decide

/-- C2 (amended): `filterOutStrangeChannels` keeps a channel iff both its
`Name` and `NameNormalized` are non-empty (dropping channels missing
either), and the kept channels form an order-preserving sublist of the
input. -/
theorem filterOutStrangeChannels_spec (chans : List Channel) :
    (∀ ch, ch ∈ filterOutStrangeChannels chans ↔
      (ch ∈ chans ∧ ch.name ≠ "" ∧ ch.nameNormalized ≠ "")) ∧
    List.Sublist (filterOutStrangeChannels chans) chans := by
  constructor
  · intro ch
    simp [filterOutStrangeChannels, List.mem_filter, and_assoc]
  · exact List.filter_sublist chans

/-- C9: the official-compatibility filter is idempotent: filtering an
already-filtered channel list yields the same list. -/
theorem filterOutStrangeChannels_idem (chans : List Channel) :
    filterOutStrangeChannels (filterOutStrangeChannels chans) =
      filterOutStrangeChannels chans := by
  simp [filterOutStrangeChannels, List.filter_filter]

/-- C4: grouping a channel's fetched message set by calendar date and
writing one file per date partitions the messages: the concatenation of
the messages across the date-bucketed files written for the channel is a
permutation of the dumped message set (no loss, no duplication). -/
theorem exportConversation_partitions (env : Env) (dir : String)
    (users : List User) (ch : Channel) (msgs : List Message) (effs : List Effect)
    (hdump : env.dump ch.id = Except.ok msgs)
    (hok : exportConversation env dir users ch = Except.ok effs) :
    List.Perm (msgsOfEffects effs) msgs := by
  simp only [exportConversation, hdump] at hok
  by_cases hlen : msgs.length = 0
  · rw [if_pos hlen] at hok
    cases hok
    have hnil : msgs = [] := List.length_eq_zero.mp hlen
    subst hnil
    exact List.Perm.refl _
  · rw [if_neg hlen] at hok
    cases hv : validName ch (indexByID users) with
    | error e => rw [hv] at hok; cases hok
    | ok name =>
      rw [hv] at hok
      cases hok
      rw [msgsOfEffects_saveChannel]
      exact joinBuckets_byDate env.dateOf msgs

/-- Witness for C4: three messages on two dates are sharded into two date
files whose contents together are a permutation of the dump. -/
theorem exportConversation_partitions_witness :
    List.Perm
      (msgsOfEffects [Effect.mkDir "out/general",
        Effect.writeMsgsFile "out/general/a.json" [⟨"a", "m1"⟩, ⟨"a", "m3"⟩],
        Effect.writeMsgsFile "out/general/b.json" [⟨"b", "m2"⟩]])
      [⟨"a", "m1"⟩, ⟨"b", "m2"⟩, ⟨"a", "m3"⟩] :=
  exportConversation_partitions
    { getUsers := Except.ok [],
      dump := fun _ => Except.ok [⟨"a", "m1"⟩, ⟨"b", "m2"⟩, ⟨"a", "m3"⟩],
      dateOf := fun m => m.ts }
    "out" [] ⟨"GEN", "general", "general", false, ""⟩
    [⟨"a", "m1"⟩, ⟨"b", "m2"⟩, ⟨"a", "m3"⟩]
    [Effect.mkDir "out/general",
      Effect.writeMsgsFile "out/general/a.json" [⟨"a", "m1"⟩, ⟨"a", "m3"⟩],
      Effect.writeMsgsFile "out/general/b.json" [⟨"b", "m2"⟩]]
    rfl rfl

/-- C8: a channel whose message dump returns zero messages in the window
is processed successfully with an empty effect trace: no directory is
created and no per-date file is written for it (nothing is saved). -/
theorem exportConversation_empty (env : Env) (dir : String) (users : List User)
    (ch : Channel) (h : env.dump ch.id = Except.ok []) :
    exportConversation env dir users ch = Except.ok [] := by
  simp [exportConversation, h]

/-- Witness for C8: a channel with an empty dump yields a successful,
effect-free export. -/
theorem exportConversation_empty_witness :
    exportConversation
      { getUsers := Except.ok [], dump := fun _ => Except.ok [],
        dateOf := fun m => m.ts } "out" [] ⟨"C0", "quiet", "quiet", false, ""⟩ =
      Except.ok [] :=
  exportConversation_empty _ "out" [] ⟨"C0", "quiet", "quiet", false, ""⟩ rfl

/-- C1 counterexample: a channel with empty `NameNormalized` that is not
an IM and that yields one message makes the whole run fail: `Export.Run`
returns the wrapped unknown-entity error instead of skipping the channel
and succeeding. -/
theorem run_unknownEntity_counterexample :
    runExport
      { getUsers := Except.ok [⟨"U1", "alice"⟩],
        dump := fun _ => Except.ok [⟨"d", "hello"⟩],
        dateOf := fun m => m.ts }
      "out" false [⟨"C404", "", "", false, ""⟩] =
      Except.error (RunErr.channels ConvErr.unknownEntity) := rfl

/-- C1 (amended): for every channel with empty `NameNormalized` that is
not an IM and whose dump yields at least one message, `exportConversation`
returns the unknown-entity error, and a run whose channel stream starts
with that channel fails: `Export.Run` returns the error wrapped as a
channel-stream error; the channel is not skipped and the run does not
succeed. -/
theorem run_unknownEntity_fatal (env : Env) (dir : String) (users : List User)
    (ch : Channel) (msgs : List Message)
    (hdump : env.dump ch.id = Except.ok msgs) (hne : msgs ≠ [])
    (hnn : ch.nameNormalized = "") (him : ch.isIM = false) :
    exportConversation env dir users ch = Except.error ConvErr.unknownEntity ∧
    (∀ includeFiles rest, env.getUsers = Except.ok users →
      runExport env dir includeFiles (ch :: rest) =
        Except.error (RunErr.channels ConvErr.unknownEntity)) := by
  have hv : validName ch (indexByID users) = Except.error ConvErr.unknownEntity := by
    simp [validName, hnn, him]
  have hconv : exportConversation env dir users ch =
      Except.error ConvErr.unknownEntity := by
    simp [exportConversation, hdump, hv, List.length_eq_zero, hne]
  refine ⟨hconv, fun includeFiles rest hu => ?_⟩
  simp [runExport, hu, messagesRun, runChannels, hconv]

/-- Witness for C1's amended theorem: a concrete strange channel heading
a two-channel stream aborts the run with the wrapped unknown-entity
error. -/
theorem run_unknownEntity_fatal_witness :
    runExport
      { getUsers := Except.ok [⟨"U1", "alice"⟩],
        dump := fun _ => Except.ok [⟨"d", "hello"⟩],
        dateOf := fun m => m.ts }
      "out" true [⟨"C404", "", "", false, ""⟩, ⟨"C1", "g", "g", false, ""⟩] =
      Except.error (RunErr.channels ConvErr.unknownEntity) :=
  (run_unknownEntity_fatal _ "out" [⟨"U1", "alice"⟩] ⟨"C404", "", "", false, ""⟩
      [⟨"d", "hello"⟩] rfl (by decide) rfl rfl).2 true
    [⟨"C1", "g", "g", false, ""⟩] rfl

/-- No effect emitted by `saveChannel` is a downloader `Stop` call. -/
theorem dlStop_not_in_saveChannel (dir channelName : String)
    (buckets : List (String × List Message)) :
    Effect.dlStop ∉ saveChannel dir channelName buckets := by
  simp [saveChannel, List.mem_map]

/-- No effect emitted by a successful `exportConversation` is a
downloader `Stop` call. -/
theorem dlStop_not_in_exportConversation (env : Env) (dir : String)
    (users : List User) (ch : Channel) (effs : List Effect)
    (h : exportConversation env dir users ch = Except.ok effs) :
    Effect.dlStop ∉ effs := by
  cases hd : env.dump ch.id with
  | error e => simp [exportConversation, hd] at h
  | ok msgs =>
    simp only [exportConversation, hd] at h
    by_cases hlen : msgs.length = 0
    · rw [if_pos hlen] at h
      cases h
      simp
    · rw [if_neg hlen] at h
      cases hv : validName ch (indexByID users) with
      | error e => rw [hv] at h; cases h
      | ok name =>
        rw [hv] at h
        cases h
        exact dlStop_not_in_saveChannel dir name (byDate env.dateOf msgs)

/-- No effect accumulated by a successful channel-stream loop is a
downloader `Stop` call. -/
theorem dlStop_not_in_runChannels (env : Env) (dir : String) (users : List User) :
    ∀ stream effs chans,
      runChannels env dir users stream = Except.ok (effs, chans) →
      Effect.dlStop ∉ effs := by
  intro stream
  induction stream with
  | nil =>
    intro effs chans h
    simp only [runChannels] at h
    cases h
    simp
  | cons ch rest ih =>
    intro effs chans h
    simp only [runChannels] at h
    cases hc : exportConversation env dir users ch with
    | error e => rw [hc] at h; cases h
    | ok effs1 =>
      rw [hc] at h
      cases hr : runChannels env dir users rest with
      | error e => rw [hr] at h; cases h
      | ok p =>
        obtain ⟨effs2, chans2⟩ := p
        rw [hr] at h
        cases h
        intro hmem
        rcases List.mem_append.mp hmem with h1 | h2
        · exact dlStop_not_in_exportConversation env dir users ch effs1 hc h1
        · exact ih effs2 chans2 hr h2

/-- C6 (code finding): with file download enabled a successful
`Export.Run` trace contains the downloader `Start` call but never a
`Stop` call — no `Stop` exists in the source, so queued attachment work
is not drained before the run returns. -/
theorem run_never_stops_downloader (env : Env) (dir : String)
    (stream : List Channel) (r : List Effect)
    (h : runExport env dir true stream = Except.ok r) :
    Effect.dlStart ∈ r ∧ Effect.dlStop ∉ r := by
  cases hu : env.getUsers with
  | error e => simp [runExport, hu] at h
  | ok users =>
    simp only [runExport, hu] at h
    cases hm : messagesRun env dir true users stream with
    | error e => rw [hm] at h; cases h
    | ok effs =>
      rw [hm] at h
      cases h
      simp only [messagesRun] at hm
      cases hr : runChannels env dir users stream with
      | error e => rw [hr] at hm; cases hm
      | ok p =>
        obtain ⟨effs2, chans⟩ := p
        rw [hr] at hm
        cases hm
        have hnot := dlStop_not_in_runChannels env dir users stream effs2 chans hr
        constructor
        · simp
        · intro hmem
          simp only [if_true, List.cons_append, List.nil_append, List.mem_cons,
            List.mem_append, List.mem_singleton] at hmem
          rcases hmem with h | h | h | h | h | h
          · cases h
          · cases h
          · exact hnot h
          · cases h
          · cases h
          · cases h

/-- Witness for C6: a concrete run with file download enabled whose trace
holds `dlStart` and no `dlStop`. -/
theorem run_never_stops_downloader_witness :
    Effect.dlStart ∈
      [Effect.writeUsers [⟨"U1", "alice"⟩], Effect.dlStart,
       Effect.writeChannelsBak [⟨"C1", "g", "g", false, ""⟩],
       Effect.writeChannels [⟨"C1", "g", "g", false, ""⟩]] ∧
    Effect.dlStop ∉
      [Effect.writeUsers [⟨"U1", "alice"⟩], Effect.dlStart,
       Effect.writeChannelsBak [⟨"C1", "g", "g", false, ""⟩],
       Effect.writeChannels [⟨"C1", "g", "g", false, ""⟩]] :=
  run_never_stops_downloader
    { getUsers := Except.ok [⟨"U1", "alice"⟩], dump := fun _ => Except.ok [],
      dateOf := fun m => m.ts }
    "out" [⟨"C1", "g", "g", false, ""⟩]
    [Effect.writeUsers [⟨"U1", "alice"⟩], Effect.dlStart,
     Effect.writeChannelsBak [⟨"C1", "g", "g", false, ""⟩],
     Effect.writeChannels [⟨"C1", "g", "g", false, ""⟩]]
    rfl

/-- Inside the send loop, a first failing send that is not
`ErrNotStarted` surfaces as the loop's error, whatever the total count. -/
theorem downloadFnLoop_error (dl : SlackFile → Option DLErr) (f : SlackFile)
    (m : String) (rest : List SlackFile) (total : Nat) :
    ∀ pre, (∀ g ∈ pre, dl g = none) → dl f = some (DLErr.other m) →
      downloadFnLoop dl total (pre ++ f :: rest) =
        Except.error (DLErr.other m) := by
  intro pre
  induction pre with
  | nil =>
    intro _ hf
    simp [downloadFnLoop, hf]
  | cons g pre ih =>
    intro hpre hf
    have hg : dl g = none := hpre g (List.mem_cons_self g pre)
    simp only [List.cons_append, downloadFnLoop, hg]
    exact ih (fun x hx => hpre x (List.mem_cons_of_mem g hx)) hf

/-- C7: when the downloader is not started (every send reports
`ErrNotStarted`) the per-page attachment function returns success with a
zero count and no error; a send failing with any other error is returned
to the caller as that error. -/
theorem downloadFn_spec (dl : SlackFile → Option DLErr) (files : List SlackFile) :
    ((∀ f, dl f = some DLErr.notStarted) →
      downloadFn dl files = Except.ok ⟨"files", 0⟩) ∧
    (∀ pre f m rest, files = pre ++ f :: rest → (∀ g ∈ pre, dl g = none) →
      dl f = some (DLErr.other m) →
      downloadFn dl files = Except.error (DLErr.other m)) := by
  constructor
  · intro hns
    cases files with
    | nil => rfl
    | cons f rest => simp [downloadFn, downloadFnLoop, hns f]
  · intro pre f m rest hfiles hpre hf
    subst hfiles
    exact downloadFnLoop_error dl f m rest _ pre hpre hf

/-- Witness for C7: a not-started downloader yields a zero-count success
on a two-file page; a genuine download failure is surfaced. -/
theorem downloadFn_spec_witness :
    downloadFn (fun _ => some DLErr.notStarted) [⟨"a.png"⟩, ⟨"b.png"⟩] =
      Except.ok ⟨"files", 0⟩ ∧
    downloadFn (fun f => if f.name = "a.png" then none else some (DLErr.other "404"))
      [⟨"a.png"⟩, ⟨"b.png"⟩] = Except.error (DLErr.other "404") := by
  refine ⟨(downloadFn_spec (fun _ => some DLErr.notStarted)
      [⟨"a.png"⟩, ⟨"b.png"⟩]).1 (fun f => rfl),
    (downloadFn_spec
        (fun f => if f.name = "a.png" then none else some (DLErr.other "404"))
        [⟨"a.png"⟩, ⟨"b.png"⟩]).2 [⟨"a.png"⟩] ⟨"b.png"⟩ "404" [] rfl ?_ rfl⟩
  intro g hg
  rcases List.mem_singleton.mp hg with rfl
  rfl

/-- C10: a successful `messages` run records every streamed channel in
the unfiltered backup document `channels_full.json.bak`, and a channel
with empty `NameNormalized` that is not an IM but yields zero messages
exports successfully with no output (name resolution is never reached),
so such a channel is still recorded in the backup. -/
theorem messagesRun_backup (env : Env) (dir : String) (includeFiles : Bool)
    (users : List User) (stream : List Channel) (r : List Effect)
    (h : messagesRun env dir includeFiles users stream = Except.ok r) :
    Effect.writeChannelsBak stream ∈ r ∧
    (∀ ch : Channel, ch.nameNormalized = "" → ch.isIM = false →
      env.dump ch.id = Except.ok [] →
      exportConversation env dir users ch = Except.ok []) := by
  constructor
  · simp only [messagesRun] at h
    cases hr : runChannels env dir users stream with
    | error e => rw [hr] at h; cases h
    | ok p =>
      obtain ⟨effs, chans⟩ := p
      rw [hr] at h
      cases h
      have hch := runChannels_ok_chans env dir users stream effs chans hr
      subst hch
      simp
  · intro ch _ _ hdump
    simp [exportConversation, hdump]

/-- Witness for C10: a zero-message channel that is neither named nor an
IM still appears in the concrete run's backup write, and its export is a
successful no-op. -/
theorem messagesRun_backup_witness :
    Effect.writeChannelsBak [⟨"CX", "", "", false, "U5"⟩] ∈
      [Effect.writeChannelsBak [⟨"CX", "", "", false, "U5"⟩],
       Effect.writeChannels []] ∧
    exportConversation
      { getUsers := Except.ok [], dump := fun _ => Except.ok [],
        dateOf := fun m => m.ts } "out" [] ⟨"CX", "", "", false, "U5"⟩ =
      Except.ok [] :=
  ⟨(messagesRun_backup
      { getUsers := Except.ok [], dump := fun _ => Except.ok [],
        dateOf := fun m => m.ts }
      "out" false [] [⟨"CX", "", "", false, "U5"⟩]
      [Effect.writeChannelsBak [⟨"CX", "", "", false, "U5"⟩],
       Effect.writeChannels []] rfl).1,
   (messagesRun_backup
      { getUsers := Except.ok [], dump := fun _ => Except.ok [],
        dateOf := fun m => m.ts }
      "out" false [] [⟨"CX", "", "", false, "U5"⟩]
      [Effect.writeChannelsBak [⟨"CX", "", "", false, "U5"⟩],
       Effect.writeChannels []] rfl).2
     ⟨"CX", "", "", false, "U5"⟩ rfl rfl rfl⟩

/-- If the callback rate-limits on each of the first `k` calls and then
succeeds, and more than `k` attempts remain, the loop succeeds after
exactly `k + 1` further calls. -/
theorem withRetryLoop_success (fn : Nat → CallResult) (k : Nat) :
    ∀ m c, (∀ i, i < k → fn (c + i) = CallResult.rateLimited) →
      fn (c + k) = CallResult.ok → k < m →
      withRetryLoop fn m c = RetryResult.success (c + k + 1) := by
  induction k with
  | zero =>
    intro m c _ hok hm
    obtain ⟨n, rfl⟩ : ∃ n, m = n + 1 := ⟨m - 1, by omega⟩
    have h0 : fn c = CallResult.ok := by simpa using hok
    simp [withRetryLoop, h0]
  | succ k ih =>
    intro m c hrl hok hm
    obtain ⟨n, rfl⟩ : ∃ n, m = n + 1 := ⟨m - 1, by omega⟩
    have h0 : fn c = CallResult.rateLimited := by simpa using hrl 0 (Nat.succ_pos k)
    have hstep : withRetryLoop fn (n + 1) c = withRetryLoop fn n (c + 1) := by
      simp [withRetryLoop, h0]
    rw [hstep, show c + (k + 1) + 1 = (c + 1) + k + 1 by omega]
    refine ih n (c + 1) (fun i hi => ?_) ?_ (by omega)
    · have := hrl (i + 1) (by omega)
      rw [show (c + 1) + i = c + (i + 1) by omega]
      exact this
    · rw [show (c + 1) + k = c + (k + 1) by omega]
      exact hok

/-- If the callback rate-limits on every remaining attempt, the loop
exhausts its attempts. -/
theorem withRetryLoop_exhausted (fn : Nat → CallResult) :
    ∀ m c, (∀ i, i < m → fn (c + i) = CallResult.rateLimited) →
      withRetryLoop fn m c = RetryResult.exhausted (c + m) := by
  intro m
  induction m with
  | zero => intro c _; simp [withRetryLoop]
  | succ n ih =>
    intro c h
    have h0 : fn c = CallResult.rateLimited := by simpa using h 0 (Nat.succ_pos n)
    have hrec := ih (c + 1) (fun i hi => by
      have := h (i + 1) (by omega)
      rw [show (c + 1) + i = c + (i + 1) by omega]
      exact this)
    rw [show c + (n + 1) = (c + 1) + n by omega]
    simp [withRetryLoop, h0, hrec]

/-- A non-rate-limit error on the `j`-th call, after `j` rate-limited
calls, is propagated immediately with `j + 1` total calls made. -/
theorem withRetryLoop_failed (fn : Nat → CallResult) (j : Nat) (e : String) :
    ∀ m c, (∀ i, i < j → fn (c + i) = CallResult.rateLimited) →
      fn (c + j) = CallResult.otherErr e → j < m →
      withRetryLoop fn m c = RetryResult.failed e (c + j + 1) := by
  induction j with
  | zero =>
    intro m c _ herr hm
    obtain ⟨n, rfl⟩ : ∃ n, m = n + 1 := ⟨m - 1, by omega⟩
    have h0 : fn c = CallResult.otherErr e := by simpa using herr
    simp [withRetryLoop, h0]
  | succ j ih =>
    intro m c hrl herr hm
    obtain ⟨n, rfl⟩ : ∃ n, m = n + 1 := ⟨m - 1, by omega⟩
    have h0 : fn c = CallResult.rateLimited := by simpa using hrl 0 (Nat.succ_pos j)
    have hstep : withRetryLoop fn (n + 1) c = withRetryLoop fn n (c + 1) := by
      simp [withRetryLoop, h0]
    rw [hstep, show c + (j + 1) + 1 = (c + 1) + j + 1 by omega]
    refine ih n (c + 1) (fun i hi => ?_) ?_ (by omega)
    · have := hrl (i + 1) (by omega)
      rw [show (c + 1) + i = c + (i + 1) by omega]
      exact this
    · rw [show (c + 1) + j = c + (j + 1) by omega]
      exact herr

/-- C5: for a callback that rate-limits exactly `k` times and then
succeeds, a max-attempts bound of at least `k + 1` makes the wrapped call
succeed after exactly `k + 1` invocations, while a bound of at most `k`
fails with retry exhaustion (after the bound's number of invocations);
and any callback whose first non-rate-limit outcome is another error has
that error propagated immediately, with no further attempts. -/
theorem withRetry_spec (k m : Nat) (fn : Nat → CallResult)
    (hk : ∀ i, i < k → fn i = CallResult.rateLimited)
    (hs : fn k = CallResult.ok) :
    (k + 1 ≤ m → withRetry m fn = RetryResult.success (k + 1)) ∧
    (m ≤ k → withRetry m fn = RetryResult.exhausted m) ∧
    (∀ g : Nat → CallResult, ∀ j e, j < m →
      (∀ i, i < j → g i = CallResult.rateLimited) →
      g j = CallResult.otherErr e →
      withRetry m g = RetryResult.failed e (j + 1)) := by
  refine ⟨fun hm => ?_, fun hm => ?_, fun g j e hj hg herr => ?_⟩
  · have := withRetryLoop_success fn k m 0 (fun i hi => by simpa using hk i hi)
      (by simpa using hs) (by omega)
    simpa [withRetry] using this
  · have := withRetryLoop_exhausted fn m 0 (fun i hi => by
      simpa using hk i (by omega))
    simpa [withRetry] using this
  · have := withRetryLoop_failed g j e m 0 (fun i hi => by simpa using hg i hi)
      (by simpa using herr) hj
    simpa [withRetry] using this

/-- Witness for C5: a callback rate-limited twice then succeeding runs 3
times under 4 allowed attempts, exhausts under 1 allowed attempt, and a
callback erroring on its second call fails immediately after 2 calls. -/
theorem withRetry_spec_witness :
    withRetry 4 (fun i => if i < 2 then CallResult.rateLimited else CallResult.ok) =
      RetryResult.success 3 ∧
    withRetry 1 (fun i => if i < 2 then CallResult.rateLimited else CallResult.ok) =
      RetryResult.exhausted 1 ∧
    withRetry 4 (fun i => if i = 0 then CallResult.rateLimited
        else CallResult.otherErr "boom") =
      RetryResult.failed "boom" 2 := by
  have h1 := withRetry_spec 2 4
    (fun i => if i < 2 then CallResult.rateLimited else CallResult.ok)
    (fun i hi => by simp [hi]) (by norm_num)
  have h2 := withRetry_spec 2 1
    (fun i => if i < 2 then CallResult.rateLimited else CallResult.ok)
    (fun i hi => by simp [hi]) (by norm_num)
  refine ⟨h1.1 (by omega), h2.2.1 (by omega),
    h1.2.2
      (fun i => if i = 0 then CallResult.rateLimited else CallResult.otherErr "boom")
      1 "boom" (by omega) (fun i hi => by interval_cases i; simp) (by norm_num)⟩

end Slackdump
